import Mathlib

/-!
Shallow embedding of the idolapsoserv block service
(src/block/mod.rs) and of the block arm of the TOML service
configuration parser (src/config/mod.rs).

The run loop's mutable state (session table, lobby vector, pending
shipgate callbacks) becomes a record threaded through a step
function; a panic is modelled as Option.none; randomness is an
explicit stream passed to the step function; outbound sends and log
lines become an output trace.  The modules block/handler.rs,
block/client.rs, block/lobbyhandler.rs and services/message.rs are
not among the provided sources, so the definitions taken from the
specification text instead are each marked Modelled from the spec.
-/

abbrev ConnId := Nat

/-- Association-list map with leftmost-binding lookup; embeds the
HashMap used for the session table in block/mod.rs (and the toml
Table in config/mod.rs). -/
def mapLookup {κ α : Type} [DecidableEq κ] (k : κ) : List (κ × α) → Option α
  | [] => none
  | e :: t => if e.1 = k then some e.2 else mapLookup k t

/-- Removal of every binding of a key, embedding HashMap.remove. -/
def mapRemove {κ α : Type} [DecidableEq κ] (k : κ) (m : List (κ × α)) : List (κ × α) :=
  m.filter (fun e => decide (e.1 ≠ k))

/-- Insert-or-replace, embedding HashMap.insert. -/
def mapInsert {κ α : Type} [DecidableEq κ] (k : κ) (v : α) (m : List (κ × α)) : List (κ × α) :=
  (k, v) :: mapRemove k m

/-- In-place update of the value stored at a key, embedding a
mutation through the RefCell of the stored value. -/
def mapModify {κ α : Type} [DecidableEq κ] (k : κ) (f : α → α) (m : List (κ × α)) : List (κ × α) :=
  m.map (fun e => if e.1 = k then (e.1, f e.2) else e)

/-- Modelled from the spec: the per-connection ClientState of the
missing block/client.rs.  Attributes per section 3: connection
identifier, account reference (absent until login completes), chosen
character data (absent until character selection completes), current
lobby reference and current game reference (absent until placed). -/
structure ClientState where
  connection_id : ConnId
  account : Option Nat
  character : Option Nat
  lobby : Option Nat
  game : Option Nat
  deriving DecidableEq, Repr

/-- Modelled from the spec: ClientState::default() — a session that
is empty apart from its later-assigned connection id. -/
def ClientState.default : ClientState :=
  { connection_id := 0, account := none, character := none, lobby := none, game := none }

/-- Modelled from the spec: a GameSession (party) of the missing
block/lobbyhandler.rs, with its creation settings and its ordered
member list; the owning lobby is the Lobby record that holds it. -/
structure GameSession where
  settings : Nat
  members : List ConnId
  deriving DecidableEq, Repr

/-- Modelled from the spec: a Lobby of the missing
block/lobbyhandler.rs — index, block number and event id fixed at
construction, plus the player-slot list and the nested games. -/
structure Lobby where
  idx : Nat
  block_num : Nat
  event : Nat
  players : List ConnId
  games : List GameSession
  deriving DecidableEq, Repr

/-- Modelled from the spec: Lobby::new(idx, block_num, event) creates
an empty lobby tagged with those three values. -/
def Lobby.new (idx block_num event : Nat) : Lobby :=
  { idx := idx, block_num := block_num, event := event, players := [], games := [] }

/-- Modelled from the spec: Lobby::has_player — whether the id
occupies one of this lobby's player slots. -/
def Lobby.has_player (l : Lobby) (id : ConnId) : Bool :=
  decide (id ∈ l.players)

/-- Modelled from the spec: the effect of removing a player from a
lobby — the id leaves the player-slot list; a game-session it was a
member of loses it and is deleted when it becomes empty. -/
def lobbyRemoveId (id : ConnId) (l : Lobby) : Lobby :=
  { l with
    players := l.players.filter (fun p => decide (p ≠ id)),
    games := l.games.filterMap (fun g =>
      if id ∈ g.members then
        let g2 : GameSession := { g with members := g.members.filter (fun p => decide (p ≠ id)) }
        if g2.members.isEmpty then none else some g2
      else some g) }

/-- Modelled from the spec: Lobby::remove_player signals an error
when the id is not actually present, and otherwise removes it (also
from any game-session it occupies, deleting an emptied game). -/
def Lobby.remove_player (l : Lobby) (id : ConnId) : Except Unit Lobby :=
  if l.has_player id then Except.ok (lobbyRemoveId id l) else Except.error ()

/-- Modelled from the spec: a cross-service reply from the shipgate;
get_response_key returns the correlation key the requester chose, and
the remaining fields abstract the payload a continuation consumes. -/
structure SgMsg where
  response_key : Nat
  success : Bool
  account : Nat
  deriving DecidableEq, Repr

/-- Modelled from the spec: the kind of continuation stored with a
Pending Cross-Service Request (design note in section 9: a tagged
variant rather than an opaque closure); the block handler only
registers the login-reply continuation. -/
inductive SgCont : Type
  | login
  deriving DecidableEq, Repr

/-- Modelled from the spec: the inbound Blue Burst client messages the
block dispatches on, plus a catch-all for every other message kind
(the source's wildcard arm). -/
inductive BbMsg : Type
  | bbLogin (creds : Nat)
  | bbCharDat (chr : Nat)
  | bbChat (text : String)
  | bbCreateGame (settings : Nat)
  | bbSubCmd60 (data : Nat)
  | lobbyChange (target : Nat)
  | other (tag : Nat)
  deriving DecidableEq, Repr

/-- Modelled from the spec: the merged event stream of the missing
services/message.rs ServiceMsg as the block consumes it — connect,
disconnect, client message, shipgate reply. -/
inductive ServiceMsg : Type
  | clientConnected (id : ConnId)
  | clientDisconnected (id : ConnId)
  | clientSaid (id : ConnId) (m : BbMsg)
  | shipGateMsg (m : SgMsg)
  deriving DecidableEq, Repr

/-- Outbound protocol messages the embedding tracks. -/
inductive OutMsg : Type
  | bbWelcome (flag : Nat) (sk ck : List Nat)
  | toCharSelect
  | loginReject
  | lobbyRoster
  | joinNotice
  | chatRelay (sender : ConnId) (text : String)
  | subRelay (sender : ConnId) (data : Nat)
  | gameAck
  | gameReject
  | lobbyChangeReject
  deriving DecidableEq, Repr

/-- Observable effects of one dispatched event: sends through the
loop sender, an issued shipgate request, the invocation of a stored
continuation, and log lines. -/
inductive Output : Type
  | send (dest : ConnId) (m : OutMsg)
  | sgRequest (key : Nat)
  | contInvoked (client : ConnId) (reply : SgMsg)
  | logInfo
  | logWarn
  deriving DecidableEq, Repr

def Output.isInvoke : Output → Bool
  | .contInvoked _ _ => true
  | _ => false

/-- The BlockService state owned by the run loop: session table,
lobby vector, the SgCbMgr's pending-callback store with its key
counter, a counter into the randomness stream, and the block number
and event id the service was spawned with. -/
structure BlockState where
  clients : List (ConnId × ClientState)
  lobbies : List Lobby
  pending : List (Nat × ConnId × SgCont)
  nextKey : Nat
  rcount : Nat
  block_num : Nat
  event : Nat
  deriving DecidableEq, Repr

/-- The BlockHandler of the missing block/handler.rs: BlockHandler::new
receives the loop sender, the callback manager, the client id and the
shared clients and lobbies collections; sends are modelled by the
output list each operation returns. -/
structure BlockHandler where
  client_id : ConnId
  clients : List (ConnId × ClientState)
  lobbies : List Lobby
  pending : List (Nat × ConnId × SgCont)
  nextKey : Nat
  deriving DecidableEq, Repr

/-- make_handler builds a handler bound to one connection id sharing
the service's session table, lobbies and shipgate dispatcher state. -/
def make_handler (st : BlockState) (id : ConnId) : BlockHandler :=
  { client_id := id, clients := st.clients, lobbies := st.lobbies,
    pending := st.pending, nextKey := st.nextKey }

/-- Mutations a handler made through the shared references become
visible in the service state once the dispatch returns. -/
def writeBack (st : BlockState) (h : BlockHandler) : BlockState :=
  { st with clients := h.clients, lobbies := h.lobbies,
            pending := h.pending, nextKey := h.nextKey }

/-- Capacity of one lobby's player-slot list; the spec fixes only that
it is bounded, so the bound is a named constant. -/
def lobby_capacity : Nat := 12

/-- Replace the element at one index, leaving every other position
unchanged; embeds an indexed in-place update of the lobby vector. -/
def modifyAt {α : Type} (f : α → α) : Nat → List α → List α
  | _, [] => []
  | 0, x :: t => f x :: t
  | i + 1, x :: t => x :: modifyAt f i t

/-- Remove the id from the first lobby that contains it, leaving all
later lobbies untouched. -/
def scanRemove (id : ConnId) : List Lobby → List Lobby
  | [] => []
  | l :: t => if l.has_player id then lobbyRemoveId id l :: t else l :: scanRemove id t

/-- Add a fresh game with the id as sole member to the first lobby
that contains the id. -/
def addGameFirstLobby (id : ConnId) (settings : Nat) : List Lobby → List Lobby
  | [] => []
  | l :: t =>
    if l.has_player id then
      { l with games := l.games ++ [{ settings := settings, members := [id] }] } :: t
    else l :: addGameFirstLobby id settings t

/-- Modelled from the spec: BlockHandler::bb_login of the missing
block/handler.rs — after local validation, issue an asynchronous
shipgate request under a fresh locally unique correlation key and
store the login continuation with the originating connection id. -/
def BlockHandler.bb_login (h : BlockHandler) (_creds : Nat) : BlockHandler × List Output :=
  ({ h with pending := (h.nextKey, h.client_id, SgCont.login) :: h.pending,
            nextKey := h.nextKey + 1 },
   [Output.sgRequest h.nextKey])

/-- Modelled from the spec: BlockHandler::bb_char_dat — store the
selected character on the session, place the client into lobby 0's
player slots, send the roster to the arrival and a join notification
to the existing occupants. -/
def BlockHandler.bb_char_dat (h : BlockHandler) (chr : Nat) : BlockHandler × List Output :=
  let notices :=
    match h.lobbies.head? with
    | some l => l.players.map (fun p => Output.send p OutMsg.joinNotice)
    | none => []
  ({ h with
     clients := mapModify h.client_id
       (fun c => { c with character := some chr, lobby := some 0 }) h.clients,
     lobbies := modifyAt (fun l => { l with players := l.players ++ [h.client_id] }) 0 h.lobbies },
   Output.send h.client_id OutMsg.lobbyRoster :: notices)

/-- Modelled from the spec: BlockHandler::bb_chat — relay the text to
every other occupant of the sender's current game-session if one is
active, else of the sender's current lobby; drop the message when the
sender occupies neither. -/
def BlockHandler.bb_chat (h : BlockHandler) (text : String) : BlockHandler × List Output :=
  match h.lobbies.find? (fun l => l.has_player h.client_id) with
  | some l =>
    match l.games.find? (fun g => decide (h.client_id ∈ g.members)) with
    | some g =>
      (h, (g.members.filter (fun p => decide (p ≠ h.client_id))).map
            (fun p => Output.send p (OutMsg.chatRelay h.client_id text)))
    | none =>
      (h, (l.players.filter (fun p => decide (p ≠ h.client_id))).map
            (fun p => Output.send p (OutMsg.chatRelay h.client_id text)))
  | none => (h, [])

/-- Modelled from the spec: BlockHandler::bb_create_game — requires
the sender to occupy a lobby; creates a game-session under that lobby
with the sender as sole initial member and acknowledges it; a sender
in no lobby gets a protocol-level rejection. -/
def BlockHandler.bb_create_game (h : BlockHandler) (settings : Nat) : BlockHandler × List Output :=
  if (h.lobbies.find? (fun l => l.has_player h.client_id)).isSome then
    ({ h with
       lobbies := addGameFirstLobby h.client_id settings h.lobbies,
       clients := mapModify h.client_id (fun c => { c with game := some settings }) h.clients },
     [Output.send h.client_id OutMsg.gameAck])
  else (h, [Output.send h.client_id OutMsg.gameReject])

/-- Modelled from the spec: BlockHandler::bb_subcmd_60 — the generic
0x60 sub-command is relayed to the other occupants of the sender's
current lobby; unplaced senders are dropped. -/
def BlockHandler.bb_subcmd_60 (h : BlockHandler) (data : Nat) : BlockHandler × List Output :=
  match h.lobbies.find? (fun l => l.has_player h.client_id) with
  | some l =>
    (h, (l.players.filter (fun p => decide (p ≠ h.client_id))).map
          (fun p => Output.send p (OutMsg.subRelay h.client_id data)))
  | none => (h, [])

/-- Modelled from the spec: BlockHandler::bb_lobby_change — requires
the target index to name an existing lobby with free capacity;
removes the sender from their current lobby and game, then adds them
to the target lobby, in that order; otherwise rejects. -/
def BlockHandler.bb_lobby_change (h : BlockHandler) (target : Nat) : BlockHandler × List Output :=
  match h.lobbies.get? target with
  | some l =>
    if l.players.length < lobby_capacity then
      ({ h with
         lobbies := modifyAt (fun l2 => { l2 with players := l2.players ++ [h.client_id] })
                      target (scanRemove h.client_id h.lobbies),
         clients := mapModify h.client_id
           (fun c => { c with lobby := some target, game := none }) h.clients },
       [Output.send h.client_id OutMsg.lobbyRoster])
    else (h, [Output.send h.client_id OutMsg.lobbyChangeReject])
  | none => (h, [Output.send h.client_id OutMsg.lobbyChangeReject])

/-- Modelled from the spec: running a stored continuation with a
freshly constructed handler and the reply — the login continuation
populates the session's account reference and tells the client to
proceed to character selection on success, and sends a rejection
without touching the session on failure. -/
def runCont : SgCont → BlockHandler → SgMsg → BlockHandler × List Output
  | .login, h, m =>
    if m.success then
      ({ h with clients := mapModify h.client_id
                  (fun c => { c with account := some m.account }) h.clients },
       [Output.send h.client_id OutMsg.toCharSelect])
    else (h, [Output.send h.client_id OutMsg.loginReject])

/-- Modelled from the spec: SgCbMgr::cb_for_req — look up and remove
the pending entry stored under a correlation key, returning the
originating connection id, the continuation, and the store without
that entry. -/
def pendingExtract (key : Nat) :
    List (Nat × ConnId × SgCont) → Option (ConnId × SgCont × List (Nat × ConnId × SgCont))
  | [] => none
  | e :: t =>
    if e.1 = key then some (e.2.1, e.2.2, t)
    else (pendingExtract key t).map (fun r => (r.1, r.2.1, e :: r.2.2))

/-- The disconnect path's lobby scan of BlockService::run: iterate the
lobby vector in order, and at the first lobby whose has_player test
succeeds, unwrap remove_player and stop; the unwrap of an error is a
panic, modelled as none. -/
def disconnectScan (id : ConnId) : List Lobby → Option (List Lobby)
  | [] => some []
  | l :: t =>
    if l.has_player id then
      match l.remove_player id with
      | .ok l2 => some (l2 :: t)
      | .error _ => none
    else (disconnectScan id t).map (fun t2 => l :: t2)

/-- One iteration of the BlockService::run match on a received
ServiceMsg; none models a panic of the block thread.  rng is the
stream of draws the rand crate's random() returns, read at the
position st.rcount counts. -/
def stepM (rng : Nat → Nat) (st : BlockState) : ServiceMsg → Option (BlockState × List Output)
  | .clientConnected id =>
    let sk := List.replicate 48 (rng st.rcount)
    let ck := List.replicate 48 (rng (st.rcount + 1))
    let cs : ClientState := { ClientState.default with connection_id := id }
    some ({ st with clients := mapInsert id cs st.clients, rcount := st.rcount + 2 },
          [Output.logInfo, Output.send id (OutMsg.bbWelcome 0 sk ck)])
  | .clientDisconnected id =>
    match disconnectScan id st.lobbies with
    | some ls => some ({ st with lobbies := ls, clients := mapRemove id st.clients },
                       [Output.logInfo])
    | none => none
  | .clientSaid id m =>
    let h := make_handler st id
    let r :=
      match m with
      | .bbLogin p => h.bb_login p
      | .bbCharDat p => h.bb_char_dat p
      | .bbChat p => h.bb_chat p
      | .bbCreateGame p => h.bb_create_game p
      | .bbSubCmd60 p => h.bb_subcmd_60 p
      | .lobbyChange p => h.bb_lobby_change p
      | .other _ => (h, [Output.logInfo])
    some (writeBack st r.1, r.2)
  | .shipGateMsg m =>
    match pendingExtract m.response_key st.pending with
    | some (client, c, rest) =>
      let st1 : BlockState := { st with pending := rest }
      let r := runCont c (make_handler st1 client) m
      some (writeBack st1 r.1, Output.contInvoked client m :: r.2)
    | none => some (st, [Output.logWarn])

/-- The receive loop of BlockService::run over a finite queue of
events: each event is dispatched to completion before the next is
dequeued, and the loop returns when the queue is exhausted (the
channel's recv erring, i.e. the queue closing). -/
def runEvents (rng : Nat → Nat) (st : BlockState) : List ServiceMsg → Option BlockState
  | [] => some st
  | e :: es =>
    match stepM rng st e with
    | some r => runEvents rng r.1 es
    | none => none

/-- The state a BlockService starts from when spawned: empty clients
table, empty lobby vector, fresh callback manager. -/
def initState (block_num event : Nat) : BlockState :=
  { clients := [], lobbies := [], pending := [], nextKey := 0, rcount := 0,
    block_num := block_num, event := event }

/-- BlockService::init_lobbies: push Lobby::new(i, block_num, event)
for i in 0..15 onto the lobby vector. -/
def initLobbies (st : BlockState) : BlockState :=
  { st with lobbies :=
      (List.range 15).foldl (fun acc i => acc ++ [Lobby.new i st.block_num st.event]) st.lobbies }

/-- BlockService::run on a finite inbound queue: initialize the
lobbies, then consume the queue. -/
def runBlock (rng : Nat → Nat) (block_num event : Nat) (es : List ServiceMsg) : Option BlockState :=
  runEvents rng (initLobbies (initState block_num event)) es

/-- The identifying tag of a lobby: its index, block number and event
id, fixed at Lobby::new time. -/
def lobbyTag (l : Lobby) : Nat × Nat × Nat := (l.idx, l.block_num, l.event)

/-- The set of currently-connected ids after one more event: connect
adds the id, disconnect removes it, nothing else changes it. -/
def connStep (s : List ConnId) : ServiceMsg → List ConnId
  | .clientConnected id => id :: s.filter (fun x => decide (x ≠ id))
  | .clientDisconnected id => s.filter (fun x => decide (x ≠ id))
  | .clientSaid _ _ => s
  | .shipGateMsg _ => s

/-- The set of currently-connected ids after a sequence of events. -/
def connectedAfter (es : List ServiceMsg) : List ConnId :=
  es.foldl connStep []

/-- Number of pending entries stored under a correlation key. -/
def keyCount (key : Nat) (l : List (Nat × ConnId × SgCont)) : Nat :=
  (l.filter (fun e => decide (e.1 = key))).length

theorem mapLookup_remove_ne {κ α : Type} [DecidableEq κ] (k j : κ) (m : List (κ × α))
    (h : j ≠ k) : mapLookup j (mapRemove k m) = mapLookup j m := by
  have hkj : ¬ (k = j) := fun hc => h hc.symm
  induction m with
  | nil => rfl
  | cons e t ih =>
    by_cases hek : e.1 = k
    · simp [mapRemove, List.filter_cons, hek, mapLookup, hkj] at ih ⊢
      exact ih
    · by_cases hej : e.1 = j
      · have hjk : ¬ (j = k) := fun hc => hek (hej.trans hc)
        simp [mapRemove, List.filter_cons, hek, mapLookup, hej, hjk]
      · simp [mapRemove, List.filter_cons, hek, mapLookup, hej] at ih ⊢
        exact ih

theorem mapLookup_remove_self {κ α : Type} [DecidableEq κ] (k : κ) (m : List (κ × α)) :
    mapLookup k (mapRemove k m) = none := by
  induction m with
  | nil => rfl
  | cons e t ih =>
    by_cases hek : e.1 = k
    · simpa [mapRemove, List.filter_cons, hek] using ih
    · simpa [mapRemove, List.filter_cons, hek, mapLookup] using ih

theorem mapLookup_insert_self {κ α : Type} [DecidableEq κ] (k : κ) (v : α) (m : List (κ × α)) :
    mapLookup k (mapInsert k v m) = some v := by
  simp [mapInsert, mapLookup]

theorem mapLookup_insert_ne {κ α : Type} [DecidableEq κ] (k j : κ) (v : α) (m : List (κ × α))
    (h : j ≠ k) : mapLookup j (mapInsert k v m) = mapLookup j m := by
  have hk : k ≠ j := fun hc => h hc.symm
  simp [mapInsert, mapLookup, hk]
  exact mapLookup_remove_ne k j m h

theorem mapLookup_modify_isSome {κ α : Type} [DecidableEq κ] (k j : κ) (f : α → α)
    (m : List (κ × α)) :
    (mapLookup j (mapModify k f m)).isSome = (mapLookup j m).isSome := by
  induction m with
  | nil => rfl
  | cons e t ih =>
    by_cases hek : e.1 = k
    · by_cases hej : e.1 = j
      · have hkj : k = j := hek.symm.trans hej
        simp [mapModify, mapLookup, hek, hej, hkj]
      · have hkj : ¬ (k = j) := fun hc => hej (hek.trans hc)
        simp [mapModify, mapLookup, hek, hej, hkj] at ih ⊢
        exact ih
    · by_cases hej : e.1 = j
      · have hjk : ¬ (j = k) := fun hc => hek (hej.trans hc)
        simp [mapModify, mapLookup, hek, hej, hjk]
      · simp [mapModify, mapLookup, hek, hej] at ih ⊢
        exact ih

theorem disconnectScan_isSome (id : ConnId) (ls : List Lobby) :
    (disconnectScan id ls).isSome = true := by
  induction ls with
  | nil => rfl
  | cons l t ih =>
    by_cases hl : l.has_player id
    · simp [disconnectScan, hl, Lobby.remove_player]
    · simpa [disconnectScan, hl] using ih

theorem disconnectScan_all_not (id : ConnId) (ls : List Lobby)
    (h : ∀ l ∈ ls, l.has_player id = false) : disconnectScan id ls = some ls := by
  induction ls with
  | nil => rfl
  | cons l t ih =>
    have hl : l.has_player id = false := h l (List.mem_cons_self l t)
    have ht : disconnectScan id t = some t := ih (fun x hx => h x (List.mem_cons_of_mem l hx))
    simp [disconnectScan, hl, ht]

theorem disconnectScan_cons_hit (id : ConnId) (cur : Lobby) (post : List Lobby)
    (h : cur.has_player id = true) :
    disconnectScan id (cur :: post) = some (lobbyRemoveId id cur :: post) := by
  simp [disconnectScan, h, Lobby.remove_player]

theorem disconnectScan_append_not (id : ConnId) (pre rest : List Lobby)
    (h : ∀ l ∈ pre, l.has_player id = false) :
    disconnectScan id (pre ++ rest) = (disconnectScan id rest).map (fun t => pre ++ t) := by
  induction pre with
  | nil => simp
  | cons a t ih =>
    have ha : a.has_player id = false := h a (List.mem_cons_self a t)
    have ht := ih (fun x hx => h x (List.mem_cons_of_mem a hx))
    simp [disconnectScan, ha, ht, Option.map_map]
    rfl

theorem lobbyTag_removeId (id : ConnId) (l : Lobby) :
    lobbyTag (lobbyRemoveId id l) = lobbyTag l := rfl

theorem disconnectScan_tags (id : ConnId) (ls ls2 : List Lobby)
    (h : disconnectScan id ls = some ls2) : ls2.map lobbyTag = ls.map lobbyTag := by
  induction ls generalizing ls2 with
  | nil =>
    simp [disconnectScan] at h
    simp [h.symm]
  | cons l t ih =>
    by_cases hl : l.has_player id
    · rw [disconnectScan_cons_hit id l t hl] at h
      cases h
      simp [lobbyTag_removeId]
    · simp [disconnectScan, hl] at h
      obtain ⟨t2, ht2, rfl⟩ := h
      simp [ih t2 ht2]

theorem modifyAt_map_tags {α β : Type} (f : α → α) (g : α → β) (i : Nat) (l : List α)
    (h : ∀ x, g (f x) = g x) : (modifyAt f i l).map g = l.map g := by
  induction l generalizing i with
  | nil => cases i <;> rfl
  | cons a t ih =>
    cases i with
    | zero => simp [modifyAt, h]
    | succ n => simp [modifyAt, ih]

theorem scanRemove_tags (id : ConnId) (ls : List Lobby) :
    (scanRemove id ls).map lobbyTag = ls.map lobbyTag := by
  induction ls with
  | nil => rfl
  | cons l t ih =>
    by_cases hl : l.has_player id
    · simp [scanRemove, hl, lobbyTag_removeId]
    · simp [scanRemove, hl, ih]

theorem addGameFirstLobby_tags (id : ConnId) (settings : Nat) (ls : List Lobby) :
    (addGameFirstLobby id settings ls).map lobbyTag = ls.map lobbyTag := by
  induction ls with
  | nil => rfl
  | cons l t ih =>
    by_cases hl : l.has_player id
    · simp [addGameFirstLobby, hl, lobbyTag]
    · simp [addGameFirstLobby, hl, ih]

theorem pendingExtract_keyCount (key : Nat) (l : List (Nat × ConnId × SgCont))
    (client : ConnId) (c : SgCont) (rest : List (Nat × ConnId × SgCont))
    (h : pendingExtract key l = some (client, c, rest)) :
    keyCount key l = keyCount key rest + 1 ∧
    ∀ k, k ≠ key → keyCount k rest = keyCount k l := by
  induction l generalizing client c rest with
  | nil => simp [pendingExtract] at h
  | cons e t ih =>
    by_cases he : e.1 = key
    · simp only [pendingExtract, if_pos he, Option.some.injEq, Prod.mk.injEq] at h
      obtain ⟨h1, h2, h3⟩ := h
      subst h3
      constructor
      · simp [keyCount, List.filter_cons, he]
      · intro k hk
        have hek : ¬ (e.1 = k) := by
          rw [he]; exact fun hc => hk hc.symm
        simp [keyCount, List.filter_cons, hek]
    · simp only [pendingExtract, if_neg he] at h
      cases hpt : pendingExtract key t with
      | none => rw [hpt] at h; simp at h
      | some r =>
        rw [hpt] at h
        simp only [Option.map_some', Option.some.injEq, Prod.mk.injEq] at h
        obtain ⟨h1, h2, h3⟩ := h
        subst h3
        obtain ⟨ih1, ih2⟩ := ih r.1 r.2.1 r.2.2 hpt
        constructor
        · simp [keyCount, List.filter_cons, he] at ih1 ⊢
          exact ih1
        · intro k hk
          by_cases hek : e.1 = k
          · simp [keyCount, List.filter_cons, hek]
            exact ih2 k hk
          · simp [keyCount, List.filter_cons, hek]
            exact ih2 k hk

theorem runCont_no_invoke (c : SgCont) (h : BlockHandler) (m : SgMsg) :
    ∀ o ∈ (runCont c h m).2, o.isInvoke = false := by
  cases c
  cases hs : m.success <;> simp [runCont, hs, Output.isInvoke]

theorem runCont_frame (c : SgCont) (h : BlockHandler) (m : SgMsg) :
    (runCont c h m).1.lobbies = h.lobbies ∧
    (runCont c h m).1.pending = h.pending ∧
    (runCont c h m).1.nextKey = h.nextKey ∧
    (runCont c h m).1.client_id = h.client_id := by
  cases c
  cases hs : m.success <;> simp [runCont, hs]

theorem runCont_keys (c : SgCont) (h : BlockHandler) (m : SgMsg) (k : ConnId) :
    (mapLookup k (runCont c h m).1.clients).isSome = (mapLookup k h.clients).isSome := by
  cases c
  cases hs : m.success <;> simp [runCont, hs, mapLookup_modify_isSome]

theorem stepM_isSome (rng : Nat → Nat) (st : BlockState) (e : ServiceMsg) :
    (stepM rng st e).isSome = true := by
  cases e with
  | clientConnected id => rfl
  | clientDisconnected id =>
    cases hs : disconnectScan id st.lobbies with
    | none =>
      have hd := disconnectScan_isSome id st.lobbies
      rw [hs] at hd
      simp at hd
    | some ls => simp [stepM, hs]
  | clientSaid id m => rfl
  | shipGateMsg m =>
    cases hp : pendingExtract m.response_key st.pending with
    | none => simp [stepM, hp]
    | some r => simp [stepM, hp]

theorem stepM_said_keys (rng : Nat → Nat) (st : BlockState) (id : ConnId) (m : BbMsg)
    (st2 : BlockState) (outs : List Output)
    (h : stepM rng st (.clientSaid id m) = some (st2, outs)) (k : ConnId) :
    (mapLookup k st2.clients).isSome = (mapLookup k st.clients).isSome := by
  simp only [stepM] at h
  cases m with
  | bbLogin p =>
    simp only [Option.some.injEq, Prod.mk.injEq] at h
    obtain ⟨h1, h2⟩ := h
    subst h1
    rfl
  | bbCharDat p =>
    simp only [Option.some.injEq, Prod.mk.injEq] at h
    obtain ⟨h1, h2⟩ := h
    subst h1
    simp [writeBack, BlockHandler.bb_char_dat, make_handler, mapLookup_modify_isSome]
  | bbChat p =>
    simp only [Option.some.injEq, Prod.mk.injEq] at h
    obtain ⟨h1, h2⟩ := h
    subst h1
    simp only [writeBack, BlockHandler.bb_chat, make_handler]
    split
    · split
      · rfl
      · rfl
    · rfl
  | bbCreateGame p =>
    simp only [Option.some.injEq, Prod.mk.injEq] at h
    obtain ⟨h1, h2⟩ := h
    subst h1
    simp only [writeBack, BlockHandler.bb_create_game, make_handler]
    split
    · exact mapLookup_modify_isSome id k (fun c => { c with game := some p }) st.clients
    · rfl
  | bbSubCmd60 p =>
    simp only [Option.some.injEq, Prod.mk.injEq] at h
    obtain ⟨h1, h2⟩ := h
    subst h1
    simp only [writeBack, BlockHandler.bb_subcmd_60, make_handler]
    split
    · rfl
    · rfl
  | lobbyChange p =>
    simp only [Option.some.injEq, Prod.mk.injEq] at h
    obtain ⟨h1, h2⟩ := h
    subst h1
    simp only [writeBack, BlockHandler.bb_lobby_change, make_handler]
    split
    · split
      · exact mapLookup_modify_isSome id k
          (fun c => { c with lobby := some p, game := none }) st.clients
      · rfl
    · rfl
  | other tag =>
    simp only [Option.some.injEq, Prod.mk.injEq] at h
    obtain ⟨h1, h2⟩ := h
    subst h1
    rfl

theorem stepM_sg_keys (rng : Nat → Nat) (st : BlockState) (m : SgMsg)
    (st2 : BlockState) (outs : List Output)
    (h : stepM rng st (.shipGateMsg m) = some (st2, outs)) (k : ConnId) :
    (mapLookup k st2.clients).isSome = (mapLookup k st.clients).isSome := by
  simp only [stepM] at h
  cases hp : pendingExtract m.response_key st.pending with
  | none =>
    rw [hp] at h
    simp only [Option.some.injEq, Prod.mk.injEq] at h
    obtain ⟨h1, h2⟩ := h
    subst h1
    rfl
  | some r =>
    rw [hp] at h
    simp only [Option.some.injEq, Prod.mk.injEq] at h
    obtain ⟨h1, h2⟩ := h
    subst h1
    simp only [writeBack]
    exact runCont_keys r.2.1 (make_handler { st with pending := r.2.2 } r.1) m k

theorem stepM_tags (rng : Nat → Nat) (st : BlockState) (e : ServiceMsg)
    (st2 : BlockState) (outs : List Output)
    (h : stepM rng st e = some (st2, outs)) :
    st2.lobbies.map lobbyTag = st.lobbies.map lobbyTag := by
  cases e with
  | clientConnected id =>
    simp only [stepM, Option.some.injEq, Prod.mk.injEq] at h
    obtain ⟨h1, h2⟩ := h
    subst h1
    rfl
  | clientDisconnected id =>
    simp only [stepM] at h
    cases hs : disconnectScan id st.lobbies with
    | none => rw [hs] at h; simp at h
    | some ls =>
      rw [hs] at h
      simp only [Option.some.injEq, Prod.mk.injEq] at h
      obtain ⟨h1, h2⟩ := h
      subst h1
      exact disconnectScan_tags id st.lobbies ls hs
  | clientSaid id m =>
    simp only [stepM] at h
    cases m with
    | bbLogin p =>
      simp only [Option.some.injEq, Prod.mk.injEq] at h
      obtain ⟨h1, h2⟩ := h
      subst h1
      rfl
    | bbCharDat p =>
      simp only [Option.some.injEq, Prod.mk.injEq] at h
      obtain ⟨h1, h2⟩ := h
      subst h1
      simp only [writeBack, BlockHandler.bb_char_dat, make_handler]
      exact modifyAt_map_tags _ lobbyTag 0 st.lobbies (fun x => rfl)
    | bbChat p =>
      simp only [Option.some.injEq, Prod.mk.injEq] at h
      obtain ⟨h1, h2⟩ := h
      subst h1
      simp only [writeBack, BlockHandler.bb_chat, make_handler]
      split
      · split
        · rfl
        · rfl
      · rfl
    | bbCreateGame p =>
      simp only [Option.some.injEq, Prod.mk.injEq] at h
      obtain ⟨h1, h2⟩ := h
      subst h1
      simp only [writeBack, BlockHandler.bb_create_game, make_handler]
      split
      · exact addGameFirstLobby_tags id p st.lobbies
      · rfl
    | bbSubCmd60 p =>
      simp only [Option.some.injEq, Prod.mk.injEq] at h
      obtain ⟨h1, h2⟩ := h
      subst h1
      simp only [writeBack, BlockHandler.bb_subcmd_60, make_handler]
      split
      · rfl
      · rfl
    | lobbyChange p =>
      simp only [Option.some.injEq, Prod.mk.injEq] at h
      obtain ⟨h1, h2⟩ := h
      subst h1
      simp only [writeBack, BlockHandler.bb_lobby_change, make_handler]
      split
      · split
        · exact (modifyAt_map_tags (fun l2 => { l2 with players := l2.players ++ [id] })
            lobbyTag p (scanRemove id st.lobbies) (fun x => rfl)).trans
            (scanRemove_tags id st.lobbies)
        · rfl
      · rfl
    | other tag =>
      simp only [Option.some.injEq, Prod.mk.injEq] at h
      obtain ⟨h1, h2⟩ := h
      subst h1
      rfl
  | shipGateMsg m =>
    simp only [stepM] at h
    cases hp : pendingExtract m.response_key st.pending with
    | none =>
      rw [hp] at h
      simp only [Option.some.injEq, Prod.mk.injEq] at h
      obtain ⟨h1, h2⟩ := h
      subst h1
      rfl
    | some r =>
      rw [hp] at h
      simp only [Option.some.injEq, Prod.mk.injEq] at h
      obtain ⟨h1, h2⟩ := h
      subst h1
      simp only [writeBack]
      rw [(runCont_frame r.2.1 (make_handler { st with pending := r.2.2 } r.1) m).1]
      rfl

theorem stepM_connSet (rng : Nat → Nat) (st : BlockState) (e : ServiceMsg)
    (st2 : BlockState) (outs : List Output) (s : List ConnId)
    (h : stepM rng st e = some (st2, outs))
    (hinv : ∀ k, (mapLookup k st.clients).isSome = true ↔ k ∈ s) (k : ConnId) :
    (mapLookup k st2.clients).isSome = true ↔ k ∈ connStep s e := by
  cases e with
  | clientConnected id =>
    simp only [stepM, Option.some.injEq, Prod.mk.injEq] at h
    obtain ⟨h1, h2⟩ := h
    subst h1
    by_cases hk : k = id
    · subst hk
      simp [connStep, mapLookup_insert_self]
    · have base : (mapLookup k (mapInsert id { ClientState.default with connection_id := id }
            st.clients)).isSome = true ↔ k ∈ id :: s.filter (fun x => decide (x ≠ id)) := by
        rw [mapLookup_insert_ne id k _ st.clients hk]
        rw [hinv k]
        simp [List.mem_filter, hk]
      exact base
  | clientDisconnected id =>
    simp only [stepM] at h
    cases hs : disconnectScan id st.lobbies with
    | none => rw [hs] at h; simp at h
    | some ls =>
      rw [hs] at h
      simp only [Option.some.injEq, Prod.mk.injEq] at h
      obtain ⟨h1, h2⟩ := h
      subst h1
      by_cases hk : k = id
      · subst hk
        simp [connStep, mapLookup_remove_self, List.mem_filter]
      · have base : (mapLookup k (mapRemove id st.clients)).isSome = true ↔
            k ∈ s.filter (fun x => decide (x ≠ id)) := by
          rw [mapLookup_remove_ne id k st.clients hk]
          rw [hinv k]
          simp [List.mem_filter, hk]
        exact base
  | clientSaid id m =>
    rw [stepM_said_keys rng st id m st2 outs h k]
    simp only [connStep]
    exact hinv k
  | shipGateMsg m =>
    rw [stepM_sg_keys rng st m st2 outs h k]
    simp only [connStep]
    exact hinv k

theorem runEvents_isSome (rng : Nat → Nat) (es : List ServiceMsg) (st : BlockState) :
    (runEvents rng st es).isSome = true := by
  induction es generalizing st with
  | nil => rfl
  | cons e t ih =>
    cases hs : stepM rng st e with
    | none =>
      have hne := stepM_isSome rng st e
      rw [hs] at hne
      simp at hne
    | some r =>
      simp only [runEvents]
      rw [hs]
      exact ih r.1

theorem runEvents_connSet (rng : Nat → Nat) (es : List ServiceMsg) (st st2 : BlockState)
    (s : List ConnId) (h : runEvents rng st es = some st2)
    (hinv : ∀ k, (mapLookup k st.clients).isSome = true ↔ k ∈ s) (k : ConnId) :
    (mapLookup k st2.clients).isSome = true ↔ k ∈ es.foldl connStep s := by
  induction es generalizing st s with
  | nil =>
    simp only [runEvents, Option.some.injEq] at h
    subst h
    simpa using hinv k
  | cons e t ih =>
    simp only [runEvents] at h
    cases hs : stepM rng st e with
    | none => rw [hs] at h; cases h
    | some r =>
      rw [hs] at h
      rw [List.foldl_cons]
      exact ih r.1 (connStep s e) h
        (fun k2 => stepM_connSet rng st e r.1 r.2 s hs hinv k2)

theorem runEvents_append (rng : Nat → Nat) (st : BlockState) (es1 es2 : List ServiceMsg) :
    runEvents rng st (es1 ++ es2) =
      (runEvents rng st es1).bind (fun s1 => runEvents rng s1 es2) := by
  induction es1 generalizing st with
  | nil => simp [runEvents]
  | cons e t ih =>
    simp only [List.cons_append, runEvents]
    cases hs : stepM rng st e with
    | none => rfl
    | some r => exact ih r.1

/-- A TOML value as the service configuration reads it. -/
inductive TomlValue : Type
  | str (s : String)
  | int (i : Int)
  | boolean (b : Bool)
  deriving DecidableEq, Repr

/-- A TOML table restricted to the field shapes the service arm reads. -/
abbrev TomlTable := List (String × TomlValue)

/-- toml Value::as_str on an optional lookup result. -/
def tomlStr? : Option TomlValue → Option String
  | some (.str s) => some s
  | _ => none

/-- toml Value::as_integer on an optional lookup result. -/
def tomlInt? : Option TomlValue → Option Int
  | some (.int i) => some i
  | _ => none

/-- The cast as u16 applied to a toml integer: two's-complement
truncation to 16 bits. -/
def u16cast (i : Int) : Nat := (i % 65536).toNat

/-- The service descriptors ServiceConf::from_toml_table can yield, the
address type left abstract; the block arm carries its parsed fields, the
five other recognized service kinds are collapsed to their tag because no
claim touches their field parsing. -/
inductive ServiceConf (α : Type) : Type
  | blockService (bind : α) (num : Nat) (event : Nat)
  | otherService (ty : String)
  deriving DecidableEq, Repr

/-- ServiceConf::from_toml_table of config/mod.rs: the bind field must be
a string resolving to a socket address (resolve embeds the standard
library's to_socket_addrs), the type field selects the service arm, and
in the block arm a num field read as an integer is cast as u16 with
default 1 while an event field read as an integer is cast as u16 with
default 0. -/
def serviceConfFromToml {α : Type} (resolve : String → Option α) (t : TomlTable) :
    Except String (ServiceConf α) :=
  match (tomlStr? (mapLookup "bind" t)).bind resolve with
  | none => Except.error "No bind address specified for service"
  | some bind =>
    match tomlStr? (mapLookup "type" t) with
    | none => Except.error "Service has no type declared"
    | some ty =>
      if ty = "block" then
        Except.ok (ServiceConf.blockService bind
          (((tomlInt? (mapLookup "num" t)).map u16cast).getD 1)
          (((tomlInt? (mapLookup "event" t)).map u16cast).getD 0))
      else if ty = "patch" ∨ ty = "data" ∨ ty = "login" ∨ ty = "ship" ∨ ty = "shipgate" then
        Except.ok (ServiceConf.otherService ty)
      else Except.error "invalid service type specified"

/-- Claim C1: after every sequence of events processed by the block run
loop, the session table's key set equals exactly the set of
currently-connected connection ids — a connect inserts the session keyed
by the id, a disconnect removes it, and no other event adds or removes a
session table key. -/
theorem session_table_tracks_connections (rng : Nat → Nat) (block_num event : Nat)
    (es : List ServiceMsg) (st : BlockState)
    (h : runBlock rng block_num event es = some st) (id : ConnId) :
    (mapLookup id st.clients).isSome = true ↔ id ∈ connectedAfter es := by
  have hinit : ∀ k,
      (mapLookup k (initLobbies (initState block_num event)).clients).isSome = true ↔
        k ∈ ([] : List ConnId) := by
    intro k
    simp [initLobbies, initState, mapLookup]
  exact runEvents_connSet rng es (initLobbies (initState block_num event)) st [] h hinit id

def esW1 : List ServiceMsg :=
  [ServiceMsg.clientConnected 2, ServiceMsg.clientConnected 5, ServiceMsg.clientDisconnected 5]

theorem session_table_tracks_connections_witness :
    (runBlock (fun n => n) 1 0 esW1).elim False
      (fun st => (mapLookup 2 st.clients).isSome = true) := by
  cases hrb : runBlock (fun n => n) 1 0 esW1 with
  | none => exact absurd hrb (by decide)
  | some st =>
    exact (session_table_tracks_connections (fun n => n) 1 0 esW1 st hrb 2).mpr (by decide)

/-- Claim C2: dispatch of every inbound event returns normally — an
unrecognized client-message kind is logged and leaves the state
untouched — and the run loop consumes its whole queue without a panic,
returning only when the queue is exhausted. -/
theorem dispatch_total_never_panics (rng : Nat → Nat) :
    (∀ st e, (stepM rng st e).isSome = true) ∧
    (∀ st id tag, stepM rng st (.clientSaid id (.other tag)) = some (st, [Output.logInfo])) ∧
    (∀ st es, (runEvents rng st es).isSome = true) := by
  refine ⟨fun st e => stepM_isSome rng st e, fun st id tag => rfl,
    fun st es => runEvents_isSome rng es st⟩

/-- Claim C3: a shipgate reply's correlation key is looked up in the
pending store and the entry removed; on a hit the stored continuation is
invoked exactly once, with a freshly constructed handler for the stored
originating connection id and the reply message; on a miss a warning is
logged, the reply is discarded, and the state — sessions included — is
left unchanged with no panic. -/
theorem shipgate_reply_correlation (rng : Nat → Nat) (st : BlockState) (m : SgMsg) :
    (pendingExtract m.response_key st.pending = none →
      stepM rng st (.shipGateMsg m) = some (st, [Output.logWarn])) ∧
    (∀ client c rest, pendingExtract m.response_key st.pending = some (client, c, rest) →
      stepM rng st (.shipGateMsg m) =
        some (writeBack { st with pending := rest }
                (runCont c (make_handler { st with pending := rest } client) m).1,
              Output.contInvoked client m ::
                (runCont c (make_handler { st with pending := rest } client) m).2) ∧
      (Output.contInvoked client m ::
          (runCont c (make_handler { st with pending := rest } client) m).2).filter
        Output.isInvoke = [Output.contInvoked client m] ∧
      keyCount m.response_key st.pending = keyCount m.response_key rest + 1 ∧
      (∀ k, k ≠ m.response_key → keyCount k rest = keyCount k st.pending)) := by
  constructor
  · intro hp
    simp [stepM, hp]
  · intro client c rest hp
    have htail : (runCont c (make_handler { st with pending := rest } client) m).2.filter
        Output.isInvoke = [] := by
      rw [List.filter_eq_nil_iff]
      intro a ha
      simp [runCont_no_invoke c (make_handler { st with pending := rest } client) m a ha]
    refine ⟨by simp [stepM, hp], ?_,
      (pendingExtract_keyCount m.response_key st.pending client c rest hp).1,
      (pendingExtract_keyCount m.response_key st.pending client c rest hp).2⟩
    simp [List.filter_cons, Output.isInvoke, htail]

def stW3 : BlockState :=
  { clients := [(9, { connection_id := 9, account := none, character := none,
                      lobby := none, game := none })],
    lobbies := [], pending := [(4, 9, SgCont.login)], nextKey := 5, rcount := 0,
    block_num := 1, event := 0 }

def mW3 : SgMsg := { response_key := 4, success := true, account := 77 }

theorem shipgate_reply_correlation_witness :
    (stepM (fun n => n) stW3 (.shipGateMsg mW3)).elim False
      (fun r => r.2.filter Output.isInvoke = [Output.contInvoked 9 mW3] ∧
        r.1.pending = []) := by
  cases hs : stepM (fun n => n) stW3 (.shipGateMsg mW3) with
  | none => exact absurd hs (by decide)
  | some r =>
    obtain ⟨heq, hfil, _, _⟩ :=
      (shipgate_reply_correlation (fun n => n) stW3 mW3).2 9 SgCont.login [] (by decide)
    rw [hs] at heq
    have hr := Option.some.inj heq
    show r.2.filter Output.isInvoke = [Output.contInvoked 9 mW3] ∧ r.1.pending = []
    rw [hr]
    exact ⟨hfil, rfl⟩

/-- Claim C4: a connect event generates a session key pair of two
48-byte values from the randomness stream, sends a welcome message
carrying both keys to the connecting id, and inserts a new
otherwise-empty session keyed by the id whose connection identifier
equals the id, touching no other session, lobby or pending entry. -/
theorem connect_welcome_and_session (rng : Nat → Nat) (st : BlockState) (id : ConnId) :
    ∃ st2 sk ck,
      stepM rng st (.clientConnected id) =
        some (st2, [Output.logInfo, Output.send id (OutMsg.bbWelcome 0 sk ck)]) ∧
      sk.length = 48 ∧ ck.length = 48 ∧
      mapLookup id st2.clients =
        some { connection_id := id, account := none, character := none,
               lobby := none, game := none } ∧
      (∀ j, j ≠ id → mapLookup j st2.clients = mapLookup j st.clients) ∧
      st2.lobbies = st.lobbies ∧ st2.pending = st.pending := by
  refine ⟨_, List.replicate 48 (rng st.rcount), List.replicate 48 (rng (st.rcount + 1)),
    rfl, by simp, by simp, ?_, ?_, rfl, rfl⟩
  · exact mapLookup_insert_self id _ st.clients
  · intro j hj
    exact mapLookup_insert_ne id j _ st.clients hj

theorem connect_welcome_and_session_witness :
    (stepM (fun n => n) (initState 1 0) (.clientConnected 7)).elim False
      (fun r => mapLookup 7 r.1.clients =
          some { connection_id := 7, account := none, character := none,
                 lobby := none, game := none } ∧
        mapLookup 9 r.1.clients = mapLookup 9 (initState 1 0).clients) := by
  cases hs : stepM (fun n => n) (initState 1 0) (.clientConnected 7) with
  | none => exact absurd hs (by decide)
  | some r =>
    obtain ⟨st2, sk, ck, heq, _, _, hlook, hframe, _, _⟩ :=
      connect_welcome_and_session (fun n => n) (initState 1 0) 7
    rw [hs] at heq
    have hr := Option.some.inj heq
    show mapLookup 7 r.1.clients =
        some { connection_id := 7, account := none, character := none,
               lobby := none, game := none } ∧
      mapLookup 9 r.1.clients = mapLookup 9 (initState 1 0).clients
    rw [hr]
    exact ⟨hlook, hframe 9 (by decide)⟩

/-- Claim C5: a disconnect event scans the lobbies in order, removes the
player from the first lobby that contains the id and stops there so no
later lobby is touched, and afterwards removes the session keyed by the
id from the session table whether or not any lobby contained it. -/
theorem disconnect_first_lobby_then_session (rng : Nat → Nat) (st : BlockState) (id : ConnId) :
    ∃ ls2,
      stepM rng st (.clientDisconnected id) =
        some ({ st with lobbies := ls2, clients := mapRemove id st.clients },
              [Output.logInfo]) ∧
      mapLookup id (mapRemove id st.clients) = none ∧
      ((∀ l ∈ st.lobbies, l.has_player id = false) → ls2 = st.lobbies) ∧
      (∀ pre cur post, st.lobbies = pre ++ cur :: post →
        (∀ l ∈ pre, l.has_player id = false) → cur.has_player id = true →
        ls2 = pre ++ lobbyRemoveId id cur :: post) := by
  cases hs : disconnectScan id st.lobbies with
  | none =>
    have hd := disconnectScan_isSome id st.lobbies
    rw [hs] at hd
    simp at hd
  | some ls =>
    refine ⟨ls, by simp [stepM, hs], mapLookup_remove_self id st.clients, ?_, ?_⟩
    · intro hall
      have hall2 := disconnectScan_all_not id st.lobbies hall
      rw [hs] at hall2
      exact Option.some.inj hall2
    · intro pre cur post hsplit hpre hcur
      have hscan : disconnectScan id st.lobbies = some (pre ++ lobbyRemoveId id cur :: post) := by
        rw [hsplit, disconnectScan_append_not id pre (cur :: post) hpre,
            disconnectScan_cons_hit id cur post hcur]
        rfl
      rw [hs] at hscan
      exact Option.some.inj hscan

def lobA : Lobby := { idx := 0, block_num := 1, event := 0, players := [3], games := [] }

def lobB : Lobby := { idx := 1, block_num := 1, event := 0, players := [5], games := [] }

def lobC : Lobby := { idx := 2, block_num := 1, event := 0, players := [5, 3], games := [] }

def stW5 : BlockState :=
  { clients := [(5, { connection_id := 5, account := none, character := none,
                      lobby := none, game := none })],
    lobbies := [lobA, lobB, lobC], pending := [], nextKey := 0, rcount := 0,
    block_num := 1, event := 0 }

theorem disconnect_first_lobby_then_session_witness :
    (stepM (fun n => n) stW5 (.clientDisconnected 5)).elim False
      (fun r => r.1.lobbies = [lobA, lobbyRemoveId 5 lobB, lobC] ∧
        mapLookup 5 r.1.clients = none) := by
  cases hs : stepM (fun n => n) stW5 (.clientDisconnected 5) with
  | none => exact absurd hs (by decide)
  | some r =>
    obtain ⟨ls2, heq, hnone, _, hfirst⟩ :=
      disconnect_first_lobby_then_session (fun n => n) stW5 5
    have hls : ls2 = [lobA] ++ lobbyRemoveId 5 lobB :: [lobC] :=
      hfirst [lobA] lobB [lobC] rfl (by decide) (by decide)
    rw [hs] at heq
    have hr := Option.some.inj heq
    show r.1.lobbies = [lobA, lobbyRemoveId 5 lobB, lobC] ∧ mapLookup 5 r.1.clients = none
    rw [hr]
    exact ⟨hls, hnone⟩

set_option maxHeartbeats 1000000 in
/-- Claim C6: before any event is processed the block creates exactly 15
lobbies, indexed 0 through 14 in order and each constructed with the
block number and event id, and no later event of the run loop creates or
destroys a lobby or alters those construction tags. -/
theorem startup_fifteen_lobbies (rng : Nat → Nat) (block_num event : Nat) :
    (initLobbies (initState block_num event)).lobbies =
      (List.range 15).map (fun i => Lobby.new i block_num event) ∧
    (initLobbies (initState block_num event)).lobbies.length = 15 ∧
    (∀ st e st2 outs, stepM rng st e = some (st2, outs) →
      st2.lobbies.map lobbyTag = st.lobbies.map lobbyTag ∧
      st2.lobbies.length = st.lobbies.length) := by
  refine ⟨?_, ?_, fun st e st2 outs h => ?_⟩
  · simp [initLobbies, initState, List.range_succ]
  · simp [initLobbies, initState, List.range_succ]
  have ht := stepM_tags rng st e st2 outs h
  refine ⟨ht, ?_⟩
  have hlen := congrArg List.length ht
  simpa using hlen

theorem startup_fifteen_lobbies_witness :
    (stepM (fun n => n) (initLobbies (initState 1 0)) (.clientConnected 3)).elim False
      (fun r => r.1.lobbies.map lobbyTag =
        (initLobbies (initState 1 0)).lobbies.map lobbyTag) := by
  cases hs : stepM (fun n => n) (initLobbies (initState 1 0)) (.clientConnected 3) with
  | none => exact absurd hs (by decide)
  | some r =>
    exact ((startup_fifteen_lobbies (fun n => n) 1 0).2.2
      (initLobbies (initState 1 0)) (.clientConnected 3) r.1 r.2 hs).1

/-- Claim C7: every client message is dispatched through a fresh handler
bound to the sending connection id and sharing the session table, lobby
collection and shipgate dispatcher state, and each of the six recognized
message kinds is routed to exactly its corresponding handler operation. -/
theorem client_message_dispatch (rng : Nat → Nat) (st : BlockState) (id : ConnId) :
    ((make_handler st id).client_id = id ∧
     (make_handler st id).clients = st.clients ∧
     (make_handler st id).lobbies = st.lobbies ∧
     (make_handler st id).pending = st.pending) ∧
    (∀ p, stepM rng st (.clientSaid id (.bbLogin p)) =
      some (writeBack st ((make_handler st id).bb_login p).1,
            ((make_handler st id).bb_login p).2)) ∧
    (∀ p, stepM rng st (.clientSaid id (.bbCharDat p)) =
      some (writeBack st ((make_handler st id).bb_char_dat p).1,
            ((make_handler st id).bb_char_dat p).2)) ∧
    (∀ p, stepM rng st (.clientSaid id (.bbChat p)) =
      some (writeBack st ((make_handler st id).bb_chat p).1,
            ((make_handler st id).bb_chat p).2)) ∧
    (∀ p, stepM rng st (.clientSaid id (.bbCreateGame p)) =
      some (writeBack st ((make_handler st id).bb_create_game p).1,
            ((make_handler st id).bb_create_game p).2)) ∧
    (∀ p, stepM rng st (.clientSaid id (.bbSubCmd60 p)) =
      some (writeBack st ((make_handler st id).bb_subcmd_60 p).1,
            ((make_handler st id).bb_subcmd_60 p).2)) ∧
    (∀ p, stepM rng st (.clientSaid id (.lobbyChange p)) =
      some (writeBack st ((make_handler st id).bb_lobby_change p).1,
            ((make_handler st id).bb_lobby_change p).2)) :=
  ⟨⟨rfl, rfl, rfl, rfl⟩, fun _ => rfl, fun _ => rfl, fun _ => rfl,
   fun _ => rfl, fun _ => rfl, fun _ => rfl⟩

/-- Claim C8: the run loop is strictly serial — one dequeued event is
dispatched to completion before the rest of the queue is consumed, and
running a split queue equals running the first part to completion and
feeding its final state to the second part. -/
theorem serial_event_processing (rng : Nat → Nat) (st : BlockState) (e : ServiceMsg)
    (es1 es2 : List ServiceMsg) :
    runEvents rng st (e :: es2) =
      (stepM rng st e).bind (fun r => runEvents rng r.1 es2) ∧
    runEvents rng st (es1 ++ es2) =
      (runEvents rng st es1).bind (fun s1 => runEvents rng s1 es2) := by
  constructor
  · simp only [runEvents]
    cases hs : stepM rng st e with
    | none => rfl
    | some r => rfl
  · exact runEvents_append rng st es1 es2

/-- Claim C9: each of the two 48-element key vectors inside any welcome
message emitted by a connect event consists of 48 copies of one single
random draw — all elements of the server key equal one another and all
elements of the client key equal one another. -/
theorem session_keys_single_draw (rng : Nat → Nat) (st : BlockState) (id : ConnId)
    (st2 : BlockState) (outs : List Output) (dest : ConnId) (flag : Nat) (sk ck : List Nat)
    (h : stepM rng st (.clientConnected id) = some (st2, outs))
    (hmem : Output.send dest (OutMsg.bbWelcome flag sk ck) ∈ outs) :
    sk.length = 48 ∧ ck.length = 48 ∧
    (∀ x ∈ sk, ∀ y ∈ sk, x = y) ∧ (∀ x ∈ ck, ∀ y ∈ ck, x = y) := by
  simp only [stepM, Option.some.injEq, Prod.mk.injEq] at h
  obtain ⟨h1, h2⟩ := h
  subst h2
  simp only [List.mem_cons, List.not_mem_nil, or_false] at hmem
  rcases hmem with hm | hm
  · simp at hm
  · injection hm with hdest hwel
    injection hwel with hflag hsk hck
    subst hsk
    subst hck
    refine ⟨by simp, by simp, ?_, ?_⟩
    · intro x hx y hy
      rw [List.eq_of_mem_replicate hx, List.eq_of_mem_replicate hy]
    · intro x hx y hy
      rw [List.eq_of_mem_replicate hx, List.eq_of_mem_replicate hy]

theorem session_keys_single_draw_witness :
    (List.replicate 48 (0 : Nat)).length = 48 ∧
    (List.replicate 48 (1 : Nat)).length = 48 ∧
    (∀ x ∈ List.replicate 48 (0 : Nat), ∀ y ∈ List.replicate 48 (0 : Nat), x = y) ∧
    (∀ x ∈ List.replicate 48 (1 : Nat), ∀ y ∈ List.replicate 48 (1 : Nat), x = y) :=
  session_keys_single_draw (fun n => n) (initState 1 0) 7 _ _ 7 0
    (List.replicate 48 0) (List.replicate 48 1) rfl (by decide)

/-- Claim C10: when a service table of type block is parsed, a missing or
non-integer num field defaults to block number 1 and a missing or
non-integer event field defaults to event id 0, so a table carrying only
bind and type parses successfully. -/
theorem block_conf_defaults {α : Type} (resolve : String → Option α) (t : TomlTable)
    (s : String) (a : α)
    (hbind : mapLookup "bind" t = some (TomlValue.str s)) (hres : resolve s = some a)
    (hty : mapLookup "type" t = some (TomlValue.str "block"))
    (hnum : tomlInt? (mapLookup "num" t) = none)
    (hevent : tomlInt? (mapLookup "event" t) = none) :
    serviceConfFromToml resolve t = Except.ok (ServiceConf.blockService a 1 0) := by
  simp [serviceConfFromToml, hbind, hres, hty, tomlStr?, hnum, hevent]

def tW10 : TomlTable := [("bind", TomlValue.str "127.0.0.1:5278"), ("type", TomlValue.str "block")]

theorem block_conf_defaults_witness :
    serviceConfFromToml
        (fun s => if s = "127.0.0.1:5278" then some (0 : Nat) else none) tW10 =
      Except.ok (ServiceConf.blockService 0 1 0) :=
  block_conf_defaults (fun s => if s = "127.0.0.1:5278" then some (0 : Nat) else none)
    tW10 "127.0.0.1:5278" 0 (by decide) (by decide) (by decide) (by decide) (by decide)

theorem dispatch_total_never_panics_witness :
    stepM (fun n => n) (initState 1 0) (.clientSaid 3 (.other 99)) =
      some (initState 1 0, [Output.logInfo]) :=
  (dispatch_total_never_panics (fun n => n)).2.1 (initState 1 0) 3 99

theorem client_message_dispatch_witness :
    stepM (fun n => n) (initState 1 0) (.clientSaid 4 (.bbLogin 11)) =
      some (writeBack (initState 1 0) ((make_handler (initState 1 0) 4).bb_login 11).1,
            ((make_handler (initState 1 0) 4).bb_login 11).2) :=
  (client_message_dispatch (fun n => n) (initState 1 0) 4).2.1 11

theorem serial_event_processing_witness :
    runEvents (fun n => n) (initState 1 0)
        ([ServiceMsg.clientConnected 1] ++ [ServiceMsg.clientConnected 2]) =
      (runEvents (fun n => n) (initState 1 0) [ServiceMsg.clientConnected 1]).bind
        (fun s1 => runEvents (fun n => n) s1 [ServiceMsg.clientConnected 2]) :=
  (serial_event_processing (fun n => n) (initState 1 0) (.clientConnected 1)
    [ServiceMsg.clientConnected 1] [ServiceMsg.clientConnected 2]).2
